import Mathlib

set_option linter.unusedVariables false

/-!
A verification development for the NAT traversal pinger and its sibling
subsystems (the promise consumer and the iptables forwarding service).

The pinger implementation ships outside this tree (only its tests are
present), so the pinger, the pair prober, the port pool and the service
proxy handoff are modelled from the specification.  `Consumer.Consume`
and `serviceIPTables` are embedded from the source.
-/

namespace Traversal

/-- Modelled from the spec: `PingConfig` of section 3, probe cadence and
per-probe deadline.  The pinger implementation is not in the tree. -/
structure PingConfig where
  interval : Nat
  timeout : Nat
  deriving DecidableEq

/-- Modelled from the spec: a probe owns one local port, targets one
remote port, and either succeeds at some wall-clock completion time
(`result = some t`) or ends without success (`result = none`, covering
timeout and cancellation).  The probe implementation is not in the tree. -/
structure Probe where
  localPort : Nat
  remotePort : Nat
  result : Option Nat
  deriving DecidableEq

/-- Modelled from the spec: a punched pair as collected by the pair
prober, carrying its completion time and its index in the input port
arrays next to the port pair itself. -/
structure Winner where
  time : Nat
  idx : Nat
  localPort : Nat
  remotePort : Nat
  deriving DecidableEq

/-- Modelled from the spec: the network environment decides which probes
succeed and when (peer behaviour and NAT timing are outside the model). -/
structure NetEnv where
  outcome : Nat → Nat → Option Nat

/-- Modelled from the spec: the traversal error kinds of section 7 that
role engines and the pair prober surface. -/
inductive TravError
  | notEnoughConnections
  | natPunchAttemptTimedOut
  | unknownService
  deriving DecidableEq

/-- Successful probes with their completion data; probe number `i` uses
`local_ports[i]` and `remote_ports[i]`, and the numbering starts at the
first argument. -/
def successesFrom : Nat → List Probe → List Winner
  | _, [] => []
  | i, p :: ps =>
    match p.result with
    | some t => ⟨t, i, p.localPort, p.remotePort⟩ :: successesFrom (i + 1) ps
    | none => successesFrom (i + 1) ps

/-- The successful probes of a probe list, numbered from zero. -/
def successes (ps : List Probe) : List Winner :=
  successesFrom 0 ps

/-- Modelled from the spec: arrival order of successes, earlier
completion wall time first, index in the input port arrays as the
tie-break for simultaneous successes. -/
def arrivalLE (a b : Winner) : Prop :=
  a.time < b.time ∨ (a.time = b.time ∧ a.idx ≤ b.idx)

instance : DecidableRel arrivalLE := fun a b => by
  unfold arrivalLE
  exact inferInstance

instance : IsTotal Winner arrivalLE :=
  ⟨fun a b => by unfold arrivalLE; omega⟩

instance : IsTrans Winner arrivalLE :=
  ⟨fun a b c hab hbc => by unfold arrivalLE at hab hbc ⊢; omega⟩

/-- The successes of a probe list, listed in arrival order. -/
def arrivals (ps : List Probe) : List Winner :=
  (successes ps).insertionSort arrivalLE

/-- Deduplication by local port, keeping the first (earliest) entry for
each local port; `seen` holds the local ports already kept. -/
def dedupByPortAux : List Nat → List Winner → List Winner
  | _, [] => []
  | seen, w :: ws =>
    if w.localPort ∈ seen then dedupByPortAux seen ws
    else w :: dedupByPortAux (w.localPort :: seen) ws

/-- Modelled from the spec: deduplication by local port, keeping the
first (earliest) entry for each local port. -/
def dedupByPort (l : List Winner) : List Winner :=
  dedupByPortAux [] l

/-- Modelled from the spec, section 4.3: the pair prober collects
succeeding probes in arrival order, deduplicated by local port, and
stops once `required` winners have been collected. -/
def collectWinners (ps : List Probe) (required : Nat) : List Winner :=
  (dedupByPort (arrivals ps)).take required

/-- Modelled from the spec, section 4.3: the pair prober returns the
collected winners, together with `notEnoughConnections` when fewer than
`required` could be collected. -/
def pairProber (ps : List Probe) (required : Nat) : List Winner × Option TravError :=
  if (collectWinners ps required).length < required
  then (collectWinners ps required, some TravError.notEnoughConnections)
  else (collectWinners ps required, none)

/-- Modelled from the spec: probe `i` pairs `localPorts[i]` with
`remotePorts[i]`; the network environment decides each outcome. -/
def mkProbes (env : NetEnv) (localPorts remotePorts : List Nat) : List Probe :=
  (localPorts.zip remotePorts).map (fun pr => ⟨pr.1, pr.2, env.outcome pr.1 pr.2⟩)

/-- Modelled from the spec, section 4.4.3: `ping_peer` launches the pair
prober over the zipped port lists and asks for `required` winners; the
remote IP and the advisory `interval_count` do not change which probes
succeed in this model. -/
def pingPeer (env : NetEnv) (remoteIP : String) (localPorts remotePorts : List Nat)
    (intervalCount required : Nat) : List Winner × Option TravError :=
  pairProber (mkProbes env localPorts remotePorts) required

/-- Modelled from the spec, section 4.4.2: `ping_provider` launches the
pair prober with `N = 1`, local ports being the provider ports, and
returns the first punched socket; when no probe succeeds it surfaces
`natPunchAttemptTimedOut`. -/
def pingProvider (env : NetEnv) (remoteIP : String) (consumerPorts providerPorts : List Nat)
    (proxyPort : Nat) : Except TravError Winner :=
  match pairProber (mkProbes env providerPorts consumerPorts) 1 with
  | (w :: _, none) => Except.ok w
  | _ => Except.error TravError.natPunchAttemptTimedOut

/-- Modelled from the spec, section 3: process-scoped pinger state with
its configuration, the service-binding map and the shutdown signal.  The
event sink carries no state that the model observes. -/
structure Pinger where
  config : PingConfig
  bindings : List (String × Nat)
  stopped : Bool
  deriving DecidableEq

/-- Modelled from the spec: `new(config, event_sink)` creates a pinger
with no service bindings and the shutdown signal not yet raised. -/
def NewPinger (config : PingConfig) : Pinger :=
  ⟨config, [], false⟩

/-- Modelled from the spec, section 4.4.4: `Stop` broadcasts the
shutdown signal and returns immediately; it never fails. -/
def Stop (p : Pinger) : Pinger :=
  { p with stopped := true }

/-- `Stop` called `n` times in succession. -/
def stopIter : Nat → Pinger → Pinger
  | 0, p => p
  | n + 1, p => stopIter n (Stop p)

/-- Modelled from the spec: `bind_service_port` records a service name
to local service port binding. -/
def BindServicePort (p : Pinger) (name : String) (port : Nat) : Pinger :=
  { p with bindings := (name, port) :: p.bindings }

/-- Modelled from the spec: after shutdown, probe launches are rejected
or immediately cancelled; `none` stands for that rejection. -/
def launchProbe (p : Pinger) (probe : Probe) : Option Probe :=
  if p.stopped then none else some probe

/-- Modelled from the spec: the observable outcome of `ping_consumer`:
the surfaced error, whether any probe was launched, and the local
service port handed to the service proxy on success. -/
structure ConsumerOutcome where
  err : Option TravError
  probeLaunched : Bool
  proxyPort : Option Nat
  deriving DecidableEq

/-- Modelled from the spec, section 4.4.1: `ping_consumer` looks the
service name up first and surfaces `unknownService` without launching a
probe when it is absent; otherwise it runs the pair prober with `N = 1`
over consumer (local) and provider (remote) ports, and on success hands
the punched socket to the service proxy with the looked-up port. -/
def PingConsumer (env : NetEnv) (p : Pinger) (remoteIP : String)
    (providerPorts consumerPorts : List Nat) (serviceName : String) : ConsumerOutcome :=
  match p.bindings.lookup serviceName with
  | none => ⟨some TravError.unknownService, false, none⟩
  | some sport =>
    match pairProber (mkProbes env consumerPorts providerPorts) 1 with
    | (_ :: _, none) => ⟨none, true, some sport⟩
    | _ => ⟨some TravError.natPunchAttemptTimedOut, true, none⟩

end Traversal

namespace PortPool

/-- Modelled from the spec, section 4.1: the pool error kind. -/
inductive PoolError
  | portExhausted
  deriving DecidableEq

/-- Modelled from the spec, section 4.1: the port pool draws from an
ephemeral range `[lo, hi)` and keeps process-wide accounting of the
port numbers currently handed out. -/
structure Pool where
  lo : Nat
  hi : Nat
  used : List Nat
  deriving DecidableEq

/-- The ports of the range not currently handed out, in ascending
order. -/
def freePorts (pool : Pool) : List Nat :=
  ((List.range (pool.hi - pool.lo)).map (fun k => k + pool.lo)).filter
    (fun q => decide (q ∉ pool.used))

/-- Modelled from the spec, section 4.1: `acquire(n)` returns an ordered
sequence of `n` unique port numbers and reserves them, or fails with
`portExhausted` when the pool cannot satisfy the request. -/
def acquire (pool : Pool) (n : Nat) : Except PoolError (List Nat × Pool) :=
  let free := freePorts pool
  if free.length < n then Except.error PoolError.portExhausted
  else Except.ok (free.take n, { pool with used := free.take n ++ pool.used })

end PortPool

namespace Proxy

/-- Modelled from the spec, sections 4.5 and 5: the probe, upon success,
has already read the first datagram off the punched socket; the
remaining datagrams stay in the socket stream. -/
def probeTakeFirst (sent : List String) : Option String × List String :=
  match sent with
  | [] => (none, [])
  | d :: rest => (some d, rest)

/-- Modelled from the spec, section 5: the service proxy first drains
the datagram the probe already received, then the socket stream,
forwarding every payload to the UDP listener on the local service
port. -/
def proxyForward (servicePort : Nat) (firstPacket : Option String)
    (stream : List String) : List (Nat × String) :=
  ((match firstPacket with | some d => [d] | none => []) ++ stream).map
    (fun d => (servicePort, d))

/-- Modelled from the spec: the whole handoff, from the datagrams the
remote peer sends to the payloads delivered on the service port. -/
def handoffDeliver (servicePort : Nat) (sent : List String) : List (Nat × String) :=
  proxyForward servicePort (probeTakeFirst sent).1 (probeTakeFirst sent).2

end Proxy

namespace Promise

/-- The promise body carried inside a signed promise; `amount` is the
`Amount.Amount` field, a machine integer used only in comparisons here,
so it is kept as `Nat`. -/
structure PromiseBody where
  issuerID : String
  benefiterID : String
  amount : Nat
  deriving DecidableEq

/-- A promise together with the signature of its issuer. -/
structure SignedPromise where
  promise : PromiseBody
  issuerSignature : String
  deriving DecidableEq

/-- The request deserialized from the endpoint. -/
structure Request where
  signedPromise : SignedPromise
  deriving DecidableEq

/-- The response `Consume` replies with. -/
structure Response where
  success : Bool
  message : String
  request : Request
  deriving DecidableEq

/-- Error values `Consume` can return; the external failures (JSON
marshalling, chain balance lookup, storage) carry their own message. -/
inductive GoError
  | unsupportedRequest
  | marshalError (msg : String)
  | balanceError (msg : String)
  | storeError (msg : String)
  deriving DecidableEq

def errLowAmountMsg : String := "promise amount less then the service proposal price"

def errLowBalanceMsg : String := "issuer balance less then the promise amount"

def errBadSignatureMsg : String := "invalid Signature for the provided identity"

def errUnknownBenefiterMsg : String := "unknown promise benefiter received"

/-- The external collaborators of `Consume`: JSON marshalling of the
promise, signature verification for the issuer identity, the chain
balance of an address, and promise storage. -/
structure ConsumeEnv where
  marshal : PromiseBody → Except GoError (List Nat)
  verify : String → List Nat → String → Bool
  balanceAt : String → Except GoError Nat
  store : String → PromiseBody → Option GoError

/-- The `Consumer` fields `Consume` reads: `proposal.ProviderID` and the
proposal price `proposal.PaymentMethod.GetPrice().Amount`. -/
structure Consumer where
  providerID : String
  price : Nat
  deriving DecidableEq

/-- What one `Consume` call did: the response, the error, and whether
`storage.Store` was invoked. -/
structure ConsumeResult where
  response : Option Response
  error : Option GoError
  storeCalled : Bool
  deriving DecidableEq

/-- `Consumer.Consume` from `core/promise/consumer.go`.  The input is
`none` when the type assertion `requestPtr.(*Request)` fails.  Each
`return` of the source maps to one result here; `storeCalled` records
whether control reached the `storage.Store` call. -/
def Consume (env : ConsumeEnv) (c : Consumer) (requestPtr : Option Request) : ConsumeResult :=
  match requestPtr with
  | none => ⟨none, some GoError.unsupportedRequest, false⟩
  | some request =>
    match env.marshal request.signedPromise.promise with
    | Except.error e => ⟨none, some e, false⟩
    | Except.ok receivedPromise =>
      if ¬ env.verify request.signedPromise.promise.issuerID receivedPromise
          request.signedPromise.issuerSignature then
        ⟨some ⟨false, errBadSignatureMsg, request⟩, none, false⟩
      else if request.signedPromise.promise.benefiterID ≠ c.providerID then
        ⟨some ⟨false, errUnknownBenefiterMsg, request⟩, none, false⟩
      else if request.signedPromise.promise.amount < c.price then
        ⟨some ⟨false, errLowAmountMsg, request⟩, none, false⟩
      else
        match env.balanceAt request.signedPromise.promise.issuerID with
        | Except.error e => ⟨none, some e, false⟩
        | Except.ok balance =>
          if balance < request.signedPromise.promise.amount then
            ⟨some ⟨false, errLowBalanceMsg, request⟩, none, false⟩
          else
            match env.store request.signedPromise.promise.issuerID
                request.signedPromise.promise with
            | some e => ⟨none, some e, true⟩
            | none => ⟨some ⟨true, "Promise accepted", request⟩, none, true⟩

/-- All four validation checks of `Consume` pass: the signature
verifies against the marshalled promise, the benefiter matches the
proposal provider, the amount reaches the proposal price, and the
issuer balance reaches the amount. -/
def checksPassed (env : ConsumeEnv) (c : Consumer) (request : Request) : Prop :=
  ∃ receivedPromise,
    env.marshal request.signedPromise.promise = Except.ok receivedPromise ∧
    env.verify request.signedPromise.promise.issuerID receivedPromise
      request.signedPromise.issuerSignature = true ∧
    request.signedPromise.promise.benefiterID = c.providerID ∧
    c.price ≤ request.signedPromise.promise.amount ∧
    ∃ balance,
      env.balanceAt request.signedPromise.promise.issuerID = Except.ok balance ∧
      request.signedPromise.promise.amount ≤ balance

end Promise

namespace NatRules

/-- A NAT forwarding rule, from `core/nat` (source subnet rewritten to
the target IP). -/
structure RuleForwarding where
  sourceSubnet : String
  targetIP : String
  deriving DecidableEq

/-- One kernel-facing iptables invocation: the DROP rule of
`dropToLocal`, or the SNAT POSTROUTING rule of `iptables`. -/
inductive IptCmd
  | dropRule (action : String) (sourceSubnet : String)
  | snatRule (action : String) (rule : RuleForwarding)
  deriving DecidableEq

/-- The environment of the iptables service: the configured protected
networks and the outcome of each executed command (`none` means the
command succeeded). -/
structure IptEnv where
  protectedNetworks : String
  execResult : IptCmd → Option String

/-- `dropToLocal` from `core/nat`: a no-op when no protected networks
are configured, otherwise one DROP command; returns the error and the
commands executed. -/
def dropToLocal (env : IptEnv) (action : String) (sourceSubnet : String) :
    Option String × List IptCmd :=
  if env.protectedNetworks = "" then (none, [])
  else
    let cmd := IptCmd.dropRule action sourceSubnet
    (env.execResult cmd, [cmd])

/-- `iptables` from `core/nat`: run `dropToLocal`, stop on its error,
then run the SNAT command. -/
def iptables (env : IptEnv) (action : String) (rule : RuleForwarding) :
    Option String × List IptCmd :=
  match dropToLocal env action rule.sourceSubnet with
  | (some e, cmds) => (some e, cmds)
  | (none, cmds) =>
    let cmd := IptCmd.snatRule action rule
    match env.execResult cmd with
    | some e => (some e, cmds ++ [cmd])
    | none => (none, cmds ++ [cmd])

/-- The in-memory state of `serviceIPTables`: the registered rules.  The
Go field is a set (`map[RuleForwarding]struct\x7b\x7d`); it is kept as a
list whose membership stands for set membership, and deletion removes
every occurrence, as a map delete does. -/
structure ServiceIPTables where
  rules : List RuleForwarding
  deriving DecidableEq

/-- The outcome of one `Add` or `Del` call: the new state, the returned
error, and the iptables commands that were executed. -/
structure OpResult where
  state : ServiceIPTables
  error : Option String
  executed : List IptCmd
  deriving DecidableEq

/-- `serviceIPTables.Add` from `core/nat`: reject a rule already in the
set without touching iptables; otherwise register the rule first, then
run the append, wrapping its error (a `nil` error stays `nil` under
`errors.Wrap`). -/
def Add (env : IptEnv) (s : ServiceIPTables) (rule : RuleForwarding) : OpResult :=
  if rule ∈ s.rules then ⟨s, some "rule already exists", []⟩
  else
    let s' : ServiceIPTables := ⟨rule :: s.rules⟩
    match iptables env "append" rule with
    | (some e, cmds) => ⟨s', some ("failed to add NAT forwarding rule: " ++ e), cmds⟩
    | (none, cmds) => ⟨s', none, cmds⟩

/-- `serviceIPTables.Del` from `core/nat`: run the iptables delete
first, and remove the rule from the set only when it succeeded. -/
def Del (env : IptEnv) (s : ServiceIPTables) (rule : RuleForwarding) : OpResult :=
  match iptables env "delete" rule with
  | (some e, cmds) => ⟨s, some e, cmds⟩
  | (none, cmds) => ⟨⟨s.rules.filter (fun r => decide (r ≠ rule))⟩, none, cmds⟩

end NatRules

namespace Traversal

/-- The strict arrival order: strictly earlier completion, or the same
completion time and a strictly smaller index in the input port arrays. -/
def arrivalLT (a b : Winner) : Prop :=
  a.time < b.time ∨ (a.time = b.time ∧ a.idx < b.idx)

theorem successesFrom_localPort_mem (i : Nat) (ps : List Probe) :
    ∀ w ∈ successesFrom i ps, w.localPort ∈ ps.map Probe.localPort := by
  induction ps generalizing i with
  | nil => intro w hw; simp [successesFrom] at hw
  | cons p ps ih =>
    intro w hw
    cases hp : p.result with
    | some t =>
      rw [successesFrom, hp] at hw
      rcases List.mem_cons.mp hw with h | h
      · subst h; simp
      · exact List.mem_cons.mpr (Or.inr (ih (i + 1) w h))
    | none =>
      rw [successesFrom, hp] at hw
      exact List.mem_cons.mpr (Or.inr (ih (i + 1) w hw))

theorem successesFrom_idx_ge (i : Nat) (ps : List Probe) :
    ∀ w ∈ successesFrom i ps, i ≤ w.idx := by
  induction ps generalizing i with
  | nil => intro w hw; simp [successesFrom] at hw
  | cons p ps ih =>
    intro w hw
    cases hp : p.result with
    | some t =>
      rw [successesFrom, hp] at hw
      rcases List.mem_cons.mp hw with h | h
      · subst h; exact Nat.le_refl i
      · exact Nat.le_of_succ_le (ih (i + 1) w h)
    | none =>
      rw [successesFrom, hp] at hw
      exact Nat.le_of_succ_le (ih (i + 1) w hw)

theorem successesFrom_idx_lt (i : Nat) (ps : List Probe) :
    (successesFrom i ps).Pairwise (fun a b => a.idx < b.idx) := by
  induction ps generalizing i with
  | nil => simp [successesFrom]
  | cons p ps ih =>
    cases hp : p.result with
    | some t =>
      rw [successesFrom, hp]
      refine List.Pairwise.cons ?_ (ih (i + 1))
      intro b hb
      exact Nat.lt_of_lt_of_le (Nat.lt_succ_self i) (successesFrom_idx_ge (i + 1) ps b hb)
    | none =>
      rw [successesFrom, hp]
      exact ih (i + 1)

theorem successesFrom_length_le (i : Nat) (ps : List Probe) :
    (successesFrom i ps).length ≤ ps.length := by
  induction ps generalizing i with
  | nil => simp [successesFrom]
  | cons p ps ih =>
    cases hp : p.result with
    | some t =>
      rw [successesFrom, hp]
      simpa using ih (i + 1)
    | none =>
      rw [successesFrom, hp]
      exact Nat.le_succ_of_le (ih (i + 1))

theorem successesFrom_eq_nil (i : Nat) (ps : List Probe)
    (h : ∀ p ∈ ps, p.result = none) : successesFrom i ps = [] := by
  induction ps generalizing i with
  | nil => rfl
  | cons p ps ih =>
    rw [successesFrom, h p (List.mem_cons_self p ps)]
    exact ih (i + 1) (fun q hq => h q (List.mem_cons_of_mem p hq))

theorem arrivals_perm (ps : List Probe) : List.Perm (arrivals ps) (successes ps) :=
  List.perm_insertionSort arrivalLE (successes ps)

theorem arrivals_sorted (ps : List Probe) : (arrivals ps).Pairwise arrivalLE :=
  List.sorted_insertionSort arrivalLE (successes ps)

theorem arrivals_pairwise_lt (ps : List Probe) : (arrivals ps).Pairwise arrivalLT := by
  have hidx : (successes ps).Pairwise (fun a b => a.idx ≠ b.idx) :=
    (successesFrom_idx_lt 0 ps).imp (fun h => Nat.ne_of_lt h)
  have hidx2 : (arrivals ps).Pairwise (fun a b => a.idx ≠ b.idx) :=
    ((arrivals_perm ps).pairwise_iff (fun hab => Ne.symm hab)).mpr hidx
  refine ((arrivals_sorted ps).and hidx2).imp ?_
  intro a b hab
  rcases hab with ⟨hle, hne⟩
  unfold arrivalLE at hle
  unfold arrivalLT
  omega

theorem dedupByPortAux_sublist (seen : List Nat) (l : List Winner) :
    List.Sublist (dedupByPortAux seen l) l := by
  induction l generalizing seen with
  | nil => simp [dedupByPortAux]
  | cons w ws ih =>
    rw [dedupByPortAux]
    by_cases h : w.localPort ∈ seen
    · simp only [h, if_true]
      exact (ih seen).cons w
    · simp only [h, if_false]
      exact (ih (w.localPort :: seen)).cons₂ w

theorem dedupByPortAux_not_seen (seen : List Nat) (l : List Winner) :
    ∀ w ∈ dedupByPortAux seen l, w.localPort ∉ seen := by
  induction l generalizing seen with
  | nil => intro w hw; simp [dedupByPortAux] at hw
  | cons v vs ih =>
    intro w hw
    rw [dedupByPortAux] at hw
    by_cases h : v.localPort ∈ seen
    · rw [if_pos h] at hw
      exact ih seen w hw
    · rw [if_neg h] at hw
      rcases List.mem_cons.mp hw with h2 | h2
      · subst h2; exact h
      · intro hc
        exact ih (v.localPort :: seen) w h2 (List.mem_cons_of_mem _ hc)

theorem dedupByPortAux_ports_pairwise (seen : List Nat) (l : List Winner) :
    (dedupByPortAux seen l).Pairwise (fun a b => a.localPort ≠ b.localPort) := by
  induction l generalizing seen with
  | nil => simp [dedupByPortAux]
  | cons v vs ih =>
    rw [dedupByPortAux]
    by_cases h : v.localPort ∈ seen
    · rw [if_pos h]
      exact ih seen
    · rw [if_neg h]
      refine List.Pairwise.cons ?_ (ih (v.localPort :: seen))
      intro b hb hc
      exact dedupByPortAux_not_seen (v.localPort :: seen) vs b hb
        (hc ▸ List.mem_cons_self _ _)

theorem dedupByPort_sublist (l : List Winner) : List.Sublist (dedupByPort l) l :=
  dedupByPortAux_sublist [] l

theorem dedupByPort_ports_pairwise (l : List Winner) :
    (dedupByPort l).Pairwise (fun a b => a.localPort ≠ b.localPort) :=
  dedupByPortAux_ports_pairwise [] l

theorem collectWinners_sublist_arrivals (ps : List Probe) (required : Nat) :
    List.Sublist (collectWinners ps required) (arrivals ps) :=
  (List.take_sublist _ _).trans (dedupByPort_sublist _)

theorem collectWinners_ports_pairwise (ps : List Probe) (required : Nat) :
    (collectWinners ps required).Pairwise (fun a b => a.localPort ≠ b.localPort) :=
  (dedupByPort_ports_pairwise _).sublist (List.take_sublist _ _)

theorem collectWinners_pairwise_lt (ps : List Probe) (required : Nat) :
    (collectWinners ps required).Pairwise arrivalLT :=
  (arrivals_pairwise_lt ps).sublist (collectWinners_sublist_arrivals ps required)

theorem collectWinners_localPort_mem (ps : List Probe) (required : Nat) :
    ∀ w ∈ collectWinners ps required, w.localPort ∈ ps.map Probe.localPort := by
  intro w hw
  have h1 : w ∈ arrivals ps := (collectWinners_sublist_arrivals ps required).subset hw
  have h2 : w ∈ successes ps := (arrivals_perm ps).mem_iff.mp h1
  exact successesFrom_localPort_mem 0 ps w h2

theorem collectWinners_length_le (ps : List Probe) (required : Nat) :
    (collectWinners ps required).length ≤ ps.length := by
  have h1 := (collectWinners_sublist_arrivals ps required).length_le
  have h2 := (arrivals_perm ps).length_eq
  have h3 := successesFrom_length_le 0 ps
  unfold successes at h2
  omega

theorem collectWinners_length_le_required (ps : List Probe) (required : Nat) :
    (collectWinners ps required).length ≤ required := by
  unfold collectWinners
  rw [List.length_take]
  exact Nat.min_le_left _ _

theorem pairProber_fst (ps : List Probe) (required : Nat) :
    (pairProber ps required).1 = collectWinners ps required := by
  unfold pairProber
  split <;> rfl

theorem pairProber_snd_none_iff (ps : List Probe) (required : Nat) :
    (pairProber ps required).2 = none ↔ required ≤ (collectWinners ps required).length := by
  unfold pairProber
  by_cases h : (collectWinners ps required).length < required
  · rw [if_pos h]
    simp
    omega
  · rw [if_neg h]
    simp
    omega

theorem mkProbes_localPort_mem (env : NetEnv) (localPorts remotePorts : List Nat) :
    ∀ q ∈ (mkProbes env localPorts remotePorts).map Probe.localPort, q ∈ localPorts := by
  intro q hq
  simp only [mkProbes, List.map_map, List.mem_map] at hq
  rcases hq with ⟨pr, hpr, rfl⟩
  exact (List.of_mem_zip hpr).1

theorem mkProbes_length (env : NetEnv) (localPorts remotePorts : List Nat) :
    (mkProbes env localPorts remotePorts).length = (localPorts.zip remotePorts).length := by
  unfold mkProbes
  exact List.length_map _ _

theorem stop_stop (p : Pinger) : Stop (Stop p) = Stop p := rfl

theorem stopIter_stop (n : Nat) (p : Pinger) : stopIter n (Stop p) = Stop p := by
  induction n generalizing p with
  | zero => rfl
  | succ n ih =>
    rw [stopIter, stop_stop]
    exact ih p

/-- C1: for every `ping_peer` call that returns without error, the
returned sequence of punched pairs has length exactly `required`, the
local ports of the returned pairs are pairwise distinct, and every
returned local port is drawn from the input `local_ports` list. -/
theorem C1_pingPeer_success (env : NetEnv) (remoteIP : String)
    (localPorts remotePorts : List Nat) (intervalCount required : Nat)
    (h : (pingPeer env remoteIP localPorts remotePorts intervalCount required).2 = none) :
    (pingPeer env remoteIP localPorts remotePorts intervalCount required).1.length = required ∧
    (pingPeer env remoteIP localPorts remotePorts intervalCount required).1.Pairwise
      (fun a b => a.localPort ≠ b.localPort) ∧
    ∀ w ∈ (pingPeer env remoteIP localPorts remotePorts intervalCount required).1,
      w.localPort ∈ localPorts := by
  have hfst : (pingPeer env remoteIP localPorts remotePorts intervalCount required).1 =
      collectWinners (mkProbes env localPorts remotePorts) required := pairProber_fst _ _
  have hge : required ≤ (collectWinners (mkProbes env localPorts remotePorts) required).length :=
    (pairProber_snd_none_iff _ _).mp h
  have hle := collectWinners_length_le_required (mkProbes env localPorts remotePorts) required
  refine ⟨?_, ?_, ?_⟩
  · rw [hfst]
    omega
  · rw [hfst]
    exact collectWinners_ports_pairwise _ _
  · rw [hfst]
    intro w hw
    exact mkProbes_localPort_mem env localPorts remotePorts w.localPort
      (collectWinners_localPort_mem _ required w hw)

/-- C1 witness: an environment in which both probes succeed at once. -/
theorem C1_pingPeer_success_witness :
    (pingPeer ⟨fun _ _ => some 0⟩ "127.0.0.1" [51200, 51201] [51210, 51211] 2 2).1.length = 2 :=
  (C1_pingPeer_success ⟨fun _ _ => some 0⟩ "127.0.0.1" [51200, 51201] [51210, 51211] 2 2
    (by decide)).1

/-- C2: when fewer probes succeed than the `required` number before all
probes have terminated, `ping_peer` returns its partial list of punched
pairs together with `notEnoughConnections`, and the partial list is no
longer than the number of candidate port pairs. -/
theorem C2_pingPeer_not_enough (env : NetEnv) (remoteIP : String)
    (localPorts remotePorts : List Nat) (intervalCount required : Nat)
    (h : (successes (mkProbes env localPorts remotePorts)).length < required) :
    (pingPeer env remoteIP localPorts remotePorts intervalCount required).2 =
      some TravError.notEnoughConnections ∧
    (pingPeer env remoteIP localPorts remotePorts intervalCount required).1.length ≤
      (localPorts.zip remotePorts).length := by
  have hfst : (pingPeer env remoteIP localPorts remotePorts intervalCount required).1 =
      collectWinners (mkProbes env localPorts remotePorts) required := pairProber_fst _ _
  have hlen : (collectWinners (mkProbes env localPorts remotePorts) required).length < required := by
    have h1 := (collectWinners_sublist_arrivals (mkProbes env localPorts remotePorts)
      required).length_le
    have h2 := (arrivals_perm (mkProbes env localPorts remotePorts)).length_eq
    omega
  constructor
  · show (pairProber (mkProbes env localPorts remotePorts) required).2 =
      some TravError.notEnoughConnections
    unfold pairProber
    rw [if_pos hlen]
  · rw [hfst]
    have h3 := collectWinners_length_le (mkProbes env localPorts remotePorts) required
    have h4 := mkProbes_length env localPorts remotePorts
    omega

/-- C2 witness: one candidate pair, thirty required, nothing succeeds. -/
theorem C2_pingPeer_not_enough_witness :
    (pingPeer ⟨fun _ _ => none⟩ "127.0.0.1" [51200] [51210] 2 30).2 =
      some TravError.notEnoughConnections :=
  (C2_pingPeer_not_enough ⟨fun _ _ => none⟩ "127.0.0.1" [51200] [51210] 2 30 (by decide)).1

/-- C3: `Stop` is idempotent and total: any positive number of `Stop`
calls from any pinger state equals a single `Stop`, leaves the pinger
stopped, and makes every subsequent probe launch rejected. -/
theorem C3_stop_idempotent (p : Pinger) (n : Nat) (h : 1 ≤ n) :
    stopIter n p = Stop p ∧ (stopIter n p).stopped = true ∧
    ∀ probe, launchProbe (stopIter n p) probe = none := by
  obtain ⟨m, rfl⟩ : ∃ m, n = m + 1 := ⟨n - 1, by omega⟩
  have h1 : stopIter (m + 1) p = Stop p := by
    rw [stopIter]
    exact stopIter_stop m p
  refine ⟨h1, ?_, ?_⟩
  · rw [h1]
    rfl
  · intro probe
    rw [h1]
    rfl

/-- C3 witness: three stops on a freshly constructed pinger. -/
theorem C3_stop_idempotent_witness :
    stopIter 3 (NewPinger ⟨1, 10⟩) = Stop (NewPinger ⟨1, 10⟩) :=
  (C3_stop_idempotent (NewPinger ⟨1, 10⟩) 3 (by decide)).1

/-- C4: when no probe succeeds (the remote never sends any datagram),
`ping_provider` returns the error `natPunchAttemptTimedOut` rather than
a socket. -/
theorem C4_pingProvider_timeout (env : NetEnv) (remoteIP : String)
    (consumerPorts providerPorts : List Nat) (proxyPort : Nat)
    (h : ∀ a b, env.outcome a b = none) :
    pingProvider env remoteIP consumerPorts providerPorts proxyPort =
      Except.error TravError.natPunchAttemptTimedOut := by
  have hres : ∀ p ∈ mkProbes env providerPorts consumerPorts, p.result = none := by
    intro p hp
    simp only [mkProbes, List.mem_map] at hp
    rcases hp with ⟨pr, hpr, rfl⟩
    exact h pr.1 pr.2
  have hcw : collectWinners (mkProbes env providerPorts consumerPorts) 1 = [] := by
    unfold collectWinners arrivals successes
    rw [successesFrom_eq_nil 0 _ hres]
    rfl
  unfold pingProvider pairProber
  rw [hcw]
  rfl

/-- C4 witness: an environment in which no probe ever succeeds. -/
theorem C4_pingProvider_timeout_witness :
    pingProvider ⟨fun _ _ => none⟩ "127.0.0.1" [51206] [51205] 0 =
      Except.error TravError.natPunchAttemptTimedOut :=
  C4_pingProvider_timeout ⟨fun _ _ => none⟩ "127.0.0.1" [51206] [51205] 0 (fun a b => rfl)

/-- C6: the returned winners are ordered by completion: earlier
successes first, simultaneous successes by their index in the input
port arrays, and no two returned entries share a local port. -/
theorem C6_winner_order (env : NetEnv) (remoteIP : String)
    (localPorts remotePorts : List Nat) (intervalCount required : Nat) :
    (pingPeer env remoteIP localPorts remotePorts intervalCount required).1.Pairwise
      (fun a b => arrivalLT a b ∧ a.localPort ≠ b.localPort) := by
  have hfst : (pingPeer env remoteIP localPorts remotePorts intervalCount required).1 =
      collectWinners (mkProbes env localPorts remotePorts) required := pairProber_fst _ _
  rw [hfst]
  exact (collectWinners_pairwise_lt _ _).and (collectWinners_ports_pairwise _ _)

end Traversal

namespace Proxy

/-- C5: first-packet preservation across the proxy handoff: the proxy
delivers every datagram the remote peer sent, the one the probe had
already received included, with its payload intact, to the UDP listener
on the local service port. -/
theorem C5_first_packet_preserved (servicePort : Nat) (sent : List String) :
    handoffDeliver servicePort sent = sent.map (fun d => (servicePort, d)) := by
  cases sent <;> rfl

end Proxy

namespace Traversal

/-- C7: `ping_consumer` with an unbound service name returns
`unknownService` without launching any probe; with a bound name, the
looked-up local service port is the one handed to the service proxy on
success. -/
theorem C7_pingConsumer_service_binding (env : NetEnv) (p : Pinger) (remoteIP : String)
    (providerPorts consumerPorts : List Nat) (serviceName : String) :
    (p.bindings.lookup serviceName = none →
      PingConsumer env p remoteIP providerPorts consumerPorts serviceName =
        ⟨some TravError.unknownService, false, none⟩) ∧
    (∀ sport, p.bindings.lookup serviceName = some sport →
      (PingConsumer env p remoteIP providerPorts consumerPorts serviceName).err = none →
      (PingConsumer env p remoteIP providerPorts consumerPorts serviceName).proxyPort =
        some sport) := by
  constructor
  · intro h
    unfold PingConsumer
    rw [h]
  · intro sport hs herr
    unfold PingConsumer at herr ⊢
    rw [hs] at herr ⊢
    rcases hpp : pairProber (mkProbes env consumerPorts providerPorts) 1 with ⟨ws, e⟩
    cases ws with
    | nil => cases e <;> simp_all
    | cons w ws =>
      cases e with
      | none => rfl
      | some te => simp_all

/-- C7 witness: the bound service name resolves to the proxy port on a
successful punch. -/
theorem C7_pingConsumer_service_binding_witness :
    (PingConsumer ⟨fun _ _ => some 0⟩ (BindServicePort (NewPinger ⟨10, 100⟩) "wg1" 51199)
      "127.0.0.1" [51200] [51201] "wg1").proxyPort = some 51199 :=
  (C7_pingConsumer_service_binding ⟨fun _ _ => some 0⟩
    (BindServicePort (NewPinger ⟨10, 100⟩) "wg1" 51199) "127.0.0.1" [51200] [51201] "wg1").2
    51199 (by decide) (by decide)

end Traversal

namespace PortPool

theorem freePorts_nodup (pool : Pool) : (freePorts pool).Nodup := by
  unfold freePorts
  refine List.Nodup.filter _ ?_
  refine List.Nodup.map ?_ (List.nodup_range _)
  intro a b hab
  have h2 : a + pool.lo = b + pool.lo := hab
  omega

theorem freePorts_not_used (pool : Pool) : ∀ q ∈ freePorts pool, q ∉ pool.used := by
  intro q hq
  have h := (List.mem_filter.mp hq).2
  exact of_decide_eq_true h

/-- C8: a successful `acquire(n)` returns an ordered sequence of `n`
pairwise distinct port numbers, none of which was already handed out,
and reserves them in the pool; an unsatisfiable request fails with
`portExhausted` instead. -/
theorem C8_acquire_contract (pool : Pool) (n : Nat) :
    (∀ ports pool2, acquire pool n = Except.ok (ports, pool2) →
      ports.length = n ∧ ports.Nodup ∧ (∀ q ∈ ports, q ∉ pool.used) ∧
      ∀ q ∈ ports, q ∈ pool2.used) ∧
    ((freePorts pool).length < n → acquire pool n = Except.error PoolError.portExhausted) := by
  constructor
  · intro ports pool2 hok
    unfold acquire at hok
    by_cases h : (freePorts pool).length < n
    · rw [if_pos h] at hok
      cases hok
    · rw [if_neg h] at hok
      simp only [Except.ok.injEq, Prod.mk.injEq] at hok
      obtain ⟨hports, hpool2⟩ := hok
      subst hports
      subst hpool2
      refine ⟨?_, ?_, ?_, ?_⟩
      · rw [List.length_take]
        omega
      · exact (freePorts_nodup pool).sublist (List.take_sublist _ _)
      · intro q hq
        exact freePorts_not_used pool q ((List.take_sublist _ _).subset hq)
      · intro q hq
        exact List.mem_append_left _ hq
  · intro h
    unfold acquire
    rw [if_pos h]

/-- C8 witness: three ports out of a fresh ten-port pool. -/
theorem C8_acquire_contract_witness : ([51100, 51101, 51102] : List Nat).length = 3 :=
  ((C8_acquire_contract ⟨51100, 51110, []⟩ 3).1 [51100, 51101, 51102]
    ⟨51100, 51110, [51100, 51101, 51102]⟩ rfl).1

end PortPool

namespace Promise

/-- C9: `Consumer.Consume` never pairs a non-nil response with a
non-nil error; each of the four domain validation failures (bad
signature, unknown benefiter, promise amount below the proposal price,
issuer balance below the amount) produces a `success = false` response
with its message and a nil error; a marshalling, chain-balance or
storage failure produces a nil response with that error; storage is
invoked only when all four validation checks passed, so a failed
validation never mutates storage. -/
theorem C9_consume_contract (env : ConsumeEnv) (c : Consumer) (requestPtr : Option Request) :
    (((Consume env c requestPtr).response.isSome → (Consume env c requestPtr).error = none) ∧
     ((Consume env c requestPtr).error.isSome → (Consume env c requestPtr).response = none) ∧
     ((Consume env c requestPtr).storeCalled = true →
       ∃ request, requestPtr = some request ∧ checksPassed env c request) ∧
     (∀ r, (Consume env c requestPtr).response = some r → r.success = false →
       (Consume env c requestPtr).storeCalled = false)) ∧
    ∀ request, requestPtr = some request →
      (∀ e, env.marshal request.signedPromise.promise = Except.error e →
        Consume env c requestPtr = ⟨none, some e, false⟩) ∧
      ∀ bytes, env.marshal request.signedPromise.promise = Except.ok bytes →
        (env.verify request.signedPromise.promise.issuerID bytes
            request.signedPromise.issuerSignature = false →
          Consume env c requestPtr = ⟨some ⟨false, errBadSignatureMsg, request⟩, none, false⟩) ∧
        (env.verify request.signedPromise.promise.issuerID bytes
            request.signedPromise.issuerSignature = true →
          (request.signedPromise.promise.benefiterID ≠ c.providerID →
            Consume env c requestPtr =
              ⟨some ⟨false, errUnknownBenefiterMsg, request⟩, none, false⟩) ∧
          (request.signedPromise.promise.benefiterID = c.providerID →
            (request.signedPromise.promise.amount < c.price →
              Consume env c requestPtr =
                ⟨some ⟨false, errLowAmountMsg, request⟩, none, false⟩) ∧
            (c.price ≤ request.signedPromise.promise.amount →
              (∀ e, env.balanceAt request.signedPromise.promise.issuerID = Except.error e →
                Consume env c requestPtr = ⟨none, some e, false⟩) ∧
              ∀ balance,
                env.balanceAt request.signedPromise.promise.issuerID = Except.ok balance →
                (balance < request.signedPromise.promise.amount →
                  Consume env c requestPtr =
                    ⟨some ⟨false, errLowBalanceMsg, request⟩, none, false⟩) ∧
                (request.signedPromise.promise.amount ≤ balance →
                  (∀ e, env.store request.signedPromise.promise.issuerID
                      request.signedPromise.promise = some e →
                    Consume env c requestPtr = ⟨none, some e, true⟩) ∧
                  (env.store request.signedPromise.promise.issuerID
                      request.signedPromise.promise = none →
                    Consume env c requestPtr =
                      ⟨some ⟨true, "Promise accepted", request⟩, none, true⟩))))) := by
  constructor
  unfold Consume
  split
  · simp
  · rename_i request
    split
    · simp
    · rename_i bytes hm
      split
      · simp
      · rename_i hv
        split
        · simp
        · rename_i hb
          split
          · simp
          · rename_i ha
            split
            · simp
            · rename_i balance hbal
              split
              · simp
              · rename_i hlow
                split
                · rename_i e hst
                  refine ⟨by simp, by simp, ?_, by simp⟩
                  intro hcall
                  refine ⟨request, rfl, bytes, hm, ?_, ?_, by omega, balance, hbal, by omega⟩
                  · by_contra hcon
                    exact hv (by simp [hcon])
                  · by_contra hcon
                    exact hb hcon
                · rename_i hst
                  refine ⟨by simp, by simp, ?_, ?_⟩
                  · intro hcall
                    refine ⟨request, rfl, bytes, hm, ?_, ?_, by omega, balance, hbal, by omega⟩
                    · by_contra hcon
                      exact hv (by simp [hcon])
                    · by_contra hcon
                      exact hb hcon
                  · intro r hr hsucc
                    simp only [Option.some.injEq] at hr
                    rw [← hr] at hsucc
                    simp at hsucc
  intro request hreq
  subst hreq
  refine ⟨?_, ?_⟩
  · intro e hm
    simp [Consume, hm]
  · intro bytes hm
    refine ⟨?_, ?_⟩
    · intro hv
      simp [Consume, hm, hv]
    · intro hv
      refine ⟨?_, ?_⟩
      · intro hb
        simp [Consume, hm, hv, hb]
      · intro hb
        refine ⟨?_, ?_⟩
        · intro ha
          simp [Consume, hm, hv, hb, ha]
        · intro ha
          refine ⟨?_, ?_⟩
          · intro e hbal
            simp [Consume, hm, hv, hb, Nat.not_lt.mpr ha, hbal]
          · intro balance hbal
            refine ⟨?_, ?_⟩
            · intro hlow
              simp [Consume, hm, hv, hb, Nat.not_lt.mpr ha, hbal, hlow]
            · intro hge
              refine ⟨?_, ?_⟩
              · intro e hst
                simp [Consume, hm, hv, hb, Nat.not_lt.mpr ha, hbal, Nat.not_lt.mpr hge, hst]
              · intro hst
                simp [Consume, hm, hv, hb, Nat.not_lt.mpr ha, hbal, Nat.not_lt.mpr hge, hst]

/-- C9 witness: a request passing all checks yields a nil error. -/
theorem C9_consume_contract_witness :
    (Consume ⟨fun _ => Except.ok [1], fun _ _ _ => true, fun _ => Except.ok 100, fun _ _ => none⟩
      ⟨"prov", 5⟩ (some ⟨⟨⟨"issuer", "prov", 10⟩, "sig"⟩⟩)).error = none :=
  (C9_consume_contract ⟨fun _ => Except.ok [1], fun _ _ _ => true, fun _ => Except.ok 100,
    fun _ _ => none⟩ ⟨"prov", 5⟩ (some ⟨⟨⟨"issuer", "prov", 10⟩, "sig"⟩⟩)).1.1 (by decide)

end Promise

namespace NatRules

/-- C10: `serviceIPTables.Add` rejects an already-registered rule with
the error "rule already exists" and executes no iptables command; a new
rule is registered in the set before the append runs and stays
registered even when the append fails; `Del` removes the rule from the
set only when the iptables delete succeeded. -/
theorem C10_iptables_rules (env : IptEnv) (s : ServiceIPTables) (rule : RuleForwarding) :
    (rule ∈ s.rules → Add env s rule = ⟨s, some "rule already exists", []⟩) ∧
    (rule ∉ s.rules → rule ∈ (Add env s rule).state.rules) ∧
    ((Del env s rule).error.isSome → (Del env s rule).state = s) ∧
    ((Del env s rule).error = none → rule ∉ (Del env s rule).state.rules) := by
  refine ⟨?_, ?_, ?_, ?_⟩
  · intro h
    unfold Add
    rw [if_pos h]
  · intro h
    unfold Add
    rw [if_neg h]
    rcases hp : iptables env "append" rule with ⟨e, cmds⟩
    cases e with
    | some e => exact List.mem_cons_self _ _
    | none => exact List.mem_cons_self _ _
  · intro h
    unfold Del at h ⊢
    rcases hp : iptables env "delete" rule with ⟨e, cmds⟩
    rw [hp] at h
    cases e with
    | some e => rfl
    | none => simp at h
  · intro h
    unfold Del at h ⊢
    rcases hp : iptables env "delete" rule with ⟨e, cmds⟩
    rw [hp] at h
    cases e with
    | some e => simp at h
    | none =>
      intro hc
      have h2 := (List.mem_filter.mp hc).2
      simp at h2

/-- C10 witness: adding a rule that is already registered. -/
theorem C10_iptables_rules_witness :
    Add ⟨"", fun _ => none⟩ ⟨[⟨"10.0.0.0/24", "1.2.3.4"⟩]⟩ ⟨"10.0.0.0/24", "1.2.3.4"⟩ =
      ⟨⟨[⟨"10.0.0.0/24", "1.2.3.4"⟩]⟩, some "rule already exists", []⟩ :=
  (C10_iptables_rules ⟨"", fun _ => none⟩ ⟨[⟨"10.0.0.0/24", "1.2.3.4"⟩]⟩
    ⟨"10.0.0.0/24", "1.2.3.4"⟩).1 (by decide)

end NatRules
